import Mathlib

/-!
Shallow embedding of the EVM jump-table / gas-metering core of this
repository (the `vm` package: EIP activators, EIP-2929/2200 dynamic gas
functions, and the EIP-5656 MCOPY opcode), together with theorems that
settle the specification claims against it.

Machine integers are modelled as `Nat` with explicit `% 2^64` where the
source truncates (`uint256.Int.Uint64()`) or overflow-checks
(`math.SafeAdd` / `math.SafeMul`).  Fallible functions return `Except`.
Storage values (`common.Hash`) are modelled as `Nat`, with `0` standing
for the zero hash `common.Hash{}` (only equality tests occur in the
source).  The state-access collaborator (`StateDB`) is modelled by
explicit state records carrying exactly the access-list flags and the
refund counter that the embedded functions read and write.
-/

namespace CosmEvm

/-! ### Gas parameters (values of the external go-ethereum `params` package) -/

def SstoreSentryGasEIP2200 : Nat := 2300
def SstoreSetGasEIP2200 : Nat := 20000
def SstoreResetGasEIP2200 : Nat := 5000
def SstoreClearsScheduleRefundEIP2200 : Nat := 15000
def SstoreClearsScheduleRefundEIP3529 : Nat := 4800
def ColdSloadCostEIP2929 : Nat := 2100
def ColdAccountAccessCostEIP2929 : Nat := 2600
def WarmStorageReadCostEIP2929 : Nat := 100
def SloadGasEIP1884 : Nat := 800
def SloadGasEIP2200 : Nat := 800
def BalanceGasEIP1884 : Nat := 700
def ExtcodeHashGasEIP1884 : Nat := 700
def SelfdestructGasEIP150 : Nat := 5000
def SelfdestructRefundGas : Nat := 24000
def GasQuickStep : Nat := 2
def GasFastStep : Nat := 5
def StackLimit : Nat := 1024
def MemoryGas : Nat := 3
def QuadCoeffDiv : Nat := 512

/-! ### Errors

One constructor per distinct error value the embedded code can return.
`stackUnderflow` stands for the interpreter-level protection that makes a
short stack unreachable (the source relies on `minStack` validation and
would panic); it never occurs for stacks obeying the declared stack
effect. -/

inductive GasError where
  | gasUintOverflow
  | outOfGas
  | memoryOverflow
  | maxInitCodeSizeExceeded
  | reentrancySentry
  | stackUnderflow
  deriving DecidableEq, Repr

/-! ### 64-bit checked arithmetic (go-ethereum `common/math`) -/

/-- `math.SafeAdd`: the 64-bit sum and an overflow flag. -/
def SafeAdd (x y : Nat) : Nat × Bool :=
  ((x + y) % 2 ^ 64, decide (2 ^ 64 ≤ x + y))

/-- `math.SafeMul`: the 64-bit product and an overflow flag. -/
def SafeMul (x y : Nat) : Nat × Bool :=
  (x * y % 2 ^ 64, decide (2 ^ 64 ≤ x * y))

/-! ### Memory collaborator -/

/-- The byte-addressable growable memory: the byte store plus the
high-water gas figure used by the growth-cost formula (geth's
`Memory.lastGasCost`). -/
structure Memory where
  store : List Nat
  lastGasCost : Nat
  deriving DecidableEq, Repr

/-- `Memory.Resize`: grow the store with zero bytes up to `size`
(never shrinks). -/
def Memory.resize (m : Memory) (size : Nat) : Memory :=
  if m.store.length < size then
    { m with store := m.store ++ List.replicate (size - m.store.length) 0 }
  else m

/-- `Memory.GetPtr(offset, size)`: `none` for a zero size or an
out-of-store offset (the source returns `nil` when `size == 0` or when
`offset ≥ len(store)`, and would panic on a partially covered range —
callers resize first, so the in-bounds slice is the only reachable
non-nil case). -/
def Memory.getPtr (m : Memory) (offset size : Nat) : Option (List Nat) :=
  if size = 0 then none
  else if offset + size ≤ m.store.length then
    some ((m.store.drop offset).take size)
  else none

/-- `Memory.Set(offset, size, value)`: overwrite `size` bytes at
`offset` with `value` (Go's builtin `copy`, which permits overlapping
slices with move semantics — here `value` is already a captured list, so
the write is the temporary-buffer semantics by construction).  Callers
pass a `value` of exactly `size` bytes; an out-of-bounds write panics in
the source and is left as the identity here (unreachable after resize). -/
def Memory.set (m : Memory) (offset size : Nat) (value : List Nat) : Memory :=
  if size = 0 then m
  else if offset + size ≤ m.store.length then
    { m with store := m.store.take offset ++ value.take size ++ m.store.drop (offset + size) }
  else m

/-- Modelled from the spec: the memory growth-cost formula
(`memoryGasCost`, a helper of this repository's `vm` package that is not
under `src/`).  Per §3 of the spec it is a quadratic component divided by
a fixed scaling constant plus a linear-per-word component, charged as the
delta required to reach the new high-water mark, never charged for
offsets already covered, with the memory-bound computation
overflow-guarded (§7c).  Word size 32, linear coefficient `MemoryGas`,
quadratic divisor `QuadCoeffDiv`, and the guard bound `0x1FFFFFFFE0` are
the upstream go-ethereum values.  The caller-side update of
`lastGasCost` is not needed by any claim and is omitted. -/
def memoryGasCost (mem : Memory) (newMemSize : Nat) : Except GasError Nat :=
  if newMemSize = 0 then .ok 0
  else if 0x1FFFFFFFE0 < newMemSize then .error .gasUintOverflow
  else
    let newMemSizeWords := (newMemSize + 31) / 32
    if mem.store.length < newMemSizeWords * 32 then
      let square := newMemSizeWords * newMemSizeWords
      let linCoef := newMemSizeWords * MemoryGas
      let quadCoef := square / QuadCoeffDiv
      let newTotalFee := linCoef + quadCoef
      .ok (newTotalFee - mem.lastGasCost)
    else .ok 0

/-! ### MCOPY (EIP-5656): dynamic gas and execution -/

/-- `gasMCopy`: reads `length = Back(0)`, `src = Back(1)`,
`dst = Back(2)` (64-bit truncations of the 256-bit stack words), then
mirrors the source: overflow-checked end offsets, growth cost at the
larger end, overflow-checked `3 * length` copy cost, overflow-checked
total.  The stack is the list with the top element first. -/
def gasMCopy (mem : Memory) (stack : List Nat) : Except GasError Nat :=
  let length := stack.getD 0 0 % 2 ^ 64
  let src := stack.getD 1 0 % 2 ^ 64
  let dst := stack.getD 2 0 % 2 ^ 64
  let ed := SafeAdd dst length
  let es := SafeAdd src length
  if ed.2 || es.2 then .error .gasUintOverflow
  else
    let maxEnd := if ed.1 < es.1 then es.1 else ed.1
    match memoryGasCost mem maxEnd with
    | .error e => .error e
    | .ok memGas =>
      let cc := SafeMul 3 length
      if cc.2 then .error .gasUintOverflow
      else
        let tot := SafeAdd memGas cc.1
        if tot.2 then .error .gasUintOverflow
        else .ok tot.1

/-- `opMCopy`: pops length, then destination offset, then source offset;
returns the remaining stack and the updated memory.  A zero length
returns immediately without touching memory.  Otherwise the end offsets
are overflow-checked (`ErrMemoryOverflow`), memory is resized to the
larger end, the source range is read (`GetPtr`) and written at the
destination (`Set`). -/
def opMCopy (stack : List Nat) (mem : Memory) : Except GasError (List Nat × Memory) :=
  match stack with
  | length256 :: dst256 :: src256 :: rest =>
    let length := length256 % 2 ^ 64
    let dst := dst256 % 2 ^ 64
    let src := src256 % 2 ^ 64
    if length = 0 then .ok (rest, mem)
    else
      let es := SafeAdd src length
      let ed := SafeAdd dst length
      if es.2 || ed.2 then .error .memoryOverflow
      else
        let maxEnd := if es.1 < ed.1 then ed.1 else es.1
        let mem1 := mem.resize maxEnd
        match mem1.getPtr src length with
        | none => .error .memoryOverflow
        | some srcData => .ok (rest, mem1.set dst length srcData)
  | _ => .error .stackUnderflow

/-- Reference copy following the spec's words for the overlap contract:
read `len` bytes starting at `src` into a temporary buffer, then write
the buffer starting at `dst`. -/
def mcopyRef (m : Memory) (src dst len : Nat) : Memory :=
  let tmp := (m.store.drop src).take len
  { m with store := m.store.take dst ++ tmp ++ m.store.drop (dst + len) }

/-! ### SSTORE (EIP-2929/2200) and SLOAD dynamic gas

The slice of `StateDB` these functions touch: whether the executing
contract's address is in the access list, whether the (address, slot)
pair being written is in the access list, and the refund accumulator
(signed, per the spec's data model). -/

structure SStoreState where
  slotWarm : Bool
  addrWarm : Bool
  refund : Int
  deriving DecidableEq, Repr

/-- Outcome of the SSTORE gas function: a charge with the updated state,
an error (the source mutates nothing before its error returns, so the
state is returned unchanged alongside), or a process abort
(`panic("impossible case: address was not present in access list during
sstore op")`). -/
inductive SStoreResult where
  | ok (cost : Nat) (st : SStoreState)
  | err (e : GasError) (st : SStoreState)
  | panicked
  deriving DecidableEq, Repr

/-- `makeGasSStoreFunc(clearingRefund)` applied to a configuration:
`contractGas` is the contract's remaining gas, `value` the stack word
being written (`stack.Back(1)`), `current` the slot's current value,
`original` its committed (transaction-start) value.  Mirrors the source:
sentry check, access-list check (cold surcharge, warm marking, and the
canary panic when the contract's own address is missing), then the
EIP-2200 classification with the EIP-2929 cost and refund constants. -/
def makeGasSStoreFunc (clearingRefund : Nat) (contractGas : Nat)
    (value current original : Nat) (st : SStoreState) : SStoreResult :=
  -- "If we fail the minimum gas availability invariant, fail (0)"
  if contractGas ≤ SstoreSentryGasEIP2200 then
    .err .reentrancySentry st
  else
    -- access-list check: charge the cold cost and mark the slot warm on a
    -- cold slot; the source panics when the contract's own address is
    -- absent (its canary for the supposedly impossible case)
    if !st.slotWarm && !st.addrWarm then .panicked
    else
      let cost : Nat := if st.slotWarm then 0 else ColdSloadCostEIP2929
      let st1 : SStoreState := { st with slotWarm := true }
      if current = value then -- noop (1)
        .ok (cost + WarmStorageReadCostEIP2929) st1
      else if original = current then
        if original = 0 then -- create slot (2.1.1)
          .ok (cost + SstoreSetGasEIP2200) st1
        else
          -- delete slot (2.1.2b) adds the clearing refund
          let st2 := if value = 0 then
              { st1 with refund := st1.refund + (clearingRefund : Int) }
            else st1
          -- write existing slot (2.1.2)
          .ok (cost + (SstoreResetGasEIP2200 - ColdSloadCostEIP2929)) st2
      else
        let st2 :=
          if original ≠ 0 then
            if current = 0 then -- recreate slot (2.2.1.1)
              { st1 with refund := st1.refund - (clearingRefund : Int) }
            else if value = 0 then -- delete slot (2.2.1.2)
              { st1 with refund := st1.refund + (clearingRefund : Int) }
            else st1
          else st1
        let st3 :=
          if original = value then
            if original = 0 then -- reset to original inexistent slot (2.2.2.1)
              { st2 with refund := st2.refund +
                  ((SstoreSetGasEIP2200 - WarmStorageReadCostEIP2929 : Nat) : Int) }
            else -- reset to original existing slot (2.2.2.2)
              { st2 with refund := st2.refund +
                  (((SstoreResetGasEIP2200 - ColdSloadCostEIP2929)
                    - WarmStorageReadCostEIP2929 : Nat) : Int) }
          else st2
        .ok (cost + WarmStorageReadCostEIP2929) st3 -- dirty update (2.2)

/-- `gasSLoadEIP2929` on the slice of state it touches (whether the
(address, slot) pair is warm): the cold cost marking the pair warm on
first touch, the warm cost thereafter.  Returns (charge, new warm flag). -/
def gasSLoadEIP2929 (slotWarm : Bool) : Nat × Bool :=
  if !slotWarm then (ColdSloadCostEIP2929, true)
  else (WarmStorageReadCostEIP2929, slotWarm)

/-! ### Call-variant gas wrapper (EIP-2929) -/

/-- The slice of state `makeCallVariantGasCallEIP2929` touches: the
contract's remaining gas and whether the callee address is warm. -/
structure CallGasState where
  contractGas : Nat
  addrWarm : Bool
  deriving DecidableEq, Repr

/-- `makeCallVariantGasCallEIP2929(oldCalculator)`: the prior cost
function is abstracted as `oldCalc`, a function of the contract's
available gas (the only contract field the prior calculators read, via
the 63/64ths rule).  Mirrors the source: on a cold callee, mark warm and
deduct `cold - warm` from the contract's gas up front (out-of-gas if it
cannot), run the old calculator on the reduced balance, then on success
add the surcharge back to both the contract's gas and the returned
total; on a warm callee return the old calculator's result unchanged. -/
def makeCallVariantGasCallEIP2929 (oldCalc : Nat → Except GasError Nat)
    (st : CallGasState) : Except GasError Nat × CallGasState :=
  let coldCost := ColdAccountAccessCostEIP2929 - WarmStorageReadCostEIP2929
  if st.addrWarm then
    (oldCalc st.contractGas, st)
  else if st.contractGas < coldCost then
    (.error .outOfGas, { st with addrWarm := true })
  else
    let st1 : CallGasState := ⟨st.contractGas - coldCost, true⟩
    match oldCalc st1.contractGas with
    | .error e => (.error e, st1)
    | .ok gas => (.ok (gas + coldCost), { st1 with contractGas := st1.contractGas + coldCost })

/-! ### Jump table and feature activators -/

/-- The opcode bytes the activators in the source touch (the remaining
entries of the 256-entry table are never written by any activator, so a
single representative constructor stands for all of them: `other n` for
byte `n`). -/
inductive Opcode where
  | SLOAD | SSTORE | EXTCODECOPY | EXTCODESIZE | EXTCODEHASH | BALANCE
  | CALL | CALLCODE | STATICCALL | DELEGATECALL | SELFDESTRUCT
  | SELFBALANCE | CHAINID | BASEFEE | PUSH0 | MCOPY
  | other (n : Nat)
  deriving DecidableEq, Repr

/-- Identity of an execute function (Go stores function pointers; two
descriptors are field-for-field equal when they hold the same
pointers). `preexisting n` stands for whatever execute function entry
`n` of the base table holds. -/
inductive ExecId where
  | preexisting (n : Nat)
  | opSelfBalance | opChainID | opBaseFee | opPush0 | opMCopy
  deriving DecidableEq, Repr

/-- Identity of a dynamic gas function (same convention as `ExecId`). -/
inductive DynGasId where
  | preexisting (n : Nat)
  | gasSStoreEIP2200 | gasSStoreEIP2929 | gasSStoreEIP3529
  | gasSLoadEIP2929 | gasExtCodeCopyEIP2929 | gasEip2929AccountCheck
  | gasCallEIP2929 | gasCallCodeEIP2929 | gasStaticCallEIP2929 | gasDelegateCallEIP2929
  | gasSelfdestructEIP2929 | gasSelfdestructEIP3529
  | gasMCopy
  deriving DecidableEq, Repr

/-- The `operation` struct: execute action, constant gas, optional
dynamic gas, stack-depth bounds. -/
structure operation where
  execute : ExecId
  constantGas : Nat
  dynamicGas : Option DynGasId
  minStack : Nat
  maxStack : Nat
  deriving DecidableEq, Repr

/-- `minStack(pops, push)`: the minimum stack depth, i.e. the pop count. -/
def minStack (pops push : Nat) : Nat := pops

/-- `maxStack(pops, push)`: `StackLimit + pops - push`. -/
def maxStack (pops push : Nat) : Nat := StackLimit + pops - push

/-- A jump table assigns an operation descriptor to every opcode byte.
Activators mutate it in place in the source; here they are functional
updates. -/
def JumpTable : Type := Opcode → operation

/-- `enable1884`: raise SLOAD/BALANCE/EXTCODEHASH constant gas, add
SELFBALANCE. -/
def enable1884 (jt : JumpTable) : JumpTable := fun op =>
  match op with
  | .SLOAD => { jt .SLOAD with constantGas := SloadGasEIP1884 }
  | .BALANCE => { jt .BALANCE with constantGas := BalanceGasEIP1884 }
  | .EXTCODEHASH => { jt .EXTCODEHASH with constantGas := ExtcodeHashGasEIP1884 }
  | .SELFBALANCE =>
      { execute := .opSelfBalance, constantGas := GasFastStep, dynamicGas := none,
        minStack := minStack 0 1, maxStack := maxStack 0 1 }
  | o => jt o

/-- `enable1344`: add CHAINID. -/
def enable1344 (jt : JumpTable) : JumpTable := fun op =>
  match op with
  | .CHAINID =>
      { execute := .opChainID, constantGas := GasQuickStep, dynamicGas := none,
        minStack := minStack 0 1, maxStack := maxStack 0 1 }
  | o => jt o

/-- `enable2200`: rebalanced net-metered SSTORE. -/
def enable2200 (jt : JumpTable) : JumpTable := fun op =>
  match op with
  | .SLOAD => { jt .SLOAD with constantGas := SloadGasEIP2200 }
  | .SSTORE => { jt .SSTORE with dynamicGas := some .gasSStoreEIP2200 }
  | o => jt o

/-- `enable2929`: access-list gas accounting for the state-touching
opcodes. -/
def enable2929 (jt : JumpTable) : JumpTable := fun op =>
  match op with
  | .SSTORE => { jt .SSTORE with dynamicGas := some .gasSStoreEIP2929 }
  | .SLOAD => { jt .SLOAD with constantGas := 0, dynamicGas := some .gasSLoadEIP2929 }
  | .EXTCODECOPY => { jt .EXTCODECOPY with constantGas := WarmStorageReadCostEIP2929, dynamicGas := some .gasExtCodeCopyEIP2929 }
  | .EXTCODESIZE => { jt .EXTCODESIZE with constantGas := WarmStorageReadCostEIP2929, dynamicGas := some .gasEip2929AccountCheck }
  | .EXTCODEHASH => { jt .EXTCODEHASH with constantGas := WarmStorageReadCostEIP2929, dynamicGas := some .gasEip2929AccountCheck }
  | .BALANCE => { jt .BALANCE with constantGas := WarmStorageReadCostEIP2929, dynamicGas := some .gasEip2929AccountCheck }
  | .CALL => { jt .CALL with constantGas := WarmStorageReadCostEIP2929, dynamicGas := some .gasCallEIP2929 }
  | .CALLCODE => { jt .CALLCODE with constantGas := WarmStorageReadCostEIP2929, dynamicGas := some .gasCallCodeEIP2929 }
  | .STATICCALL => { jt .STATICCALL with constantGas := WarmStorageReadCostEIP2929, dynamicGas := some .gasStaticCallEIP2929 }
  | .DELEGATECALL => { jt .DELEGATECALL with constantGas := WarmStorageReadCostEIP2929, dynamicGas := some .gasDelegateCallEIP2929 }
  | .SELFDESTRUCT => { jt .SELFDESTRUCT with constantGas := SelfdestructGasEIP150, dynamicGas := some .gasSelfdestructEIP2929 }
  | o => jt o

/-- `enable3529`: reduced refund schedule for SSTORE and SELFDESTRUCT. -/
def enable3529 (jt : JumpTable) : JumpTable := fun op =>
  match op with
  | .SSTORE => { jt .SSTORE with dynamicGas := some .gasSStoreEIP3529 }
  | .SELFDESTRUCT => { jt .SELFDESTRUCT with dynamicGas := some .gasSelfdestructEIP3529 }
  | o => jt o

/-- `enable3198`: add BASEFEE. -/
def enable3198 (jt : JumpTable) : JumpTable := fun op =>
  match op with
  | .BASEFEE =>
      { execute := .opBaseFee, constantGas := GasQuickStep, dynamicGas := none,
        minStack := minStack 0 1, maxStack := maxStack 0 1 }
  | o => jt o

/-- `enable3855`: add PUSH0. -/
def enable3855 (jt : JumpTable) : JumpTable := fun op =>
  match op with
  | .PUSH0 =>
      { execute := .opPush0, constantGas := GasQuickStep, dynamicGas := none,
        minStack := minStack 0 1, maxStack := maxStack 0 1 }
  | o => jt o

/-- `enable5656`: add MCOPY (pops 3, pushes 0, constant gas 0, dynamic
gas `gasMCopy`). -/
def enable5656 (jt : JumpTable) : JumpTable := fun op =>
  match op with
  | .MCOPY =>
      { execute := .opMCopy, constantGas := 0, dynamicGas := some .gasMCopy,
        minStack := minStack 3 0, maxStack := maxStack 3 0 }
  | o => jt o

/-- The `activators` registry mapping feature identifier strings to
activator functions. -/
def activators (name : String) : Option (JumpTable → JumpTable) :=
  if name = "ethereum_5656" then some enable5656
  else if name = "ethereum_3855" then some enable3855
  else if name = "ethereum_3529" then some enable3529
  else if name = "ethereum_3198" then some enable3198
  else if name = "ethereum_2929" then some enable2929
  else if name = "ethereum_2200" then some enable2200
  else if name = "ethereum_1884" then some enable1884
  else if name = "ethereum_1344" then some enable1344
  else none

/-- `EnableEIP`: look the identifier up and apply its activator; an
unknown identifier is a configuration error naming it, and the table is
returned untouched (in the source the in-place table is only written by
the activator, which is never invoked on the error path). -/
def EnableEIP (eipName : String) (jt : JumpTable) : JumpTable × Option String :=
  match activators eipName with
  | some enablerFn => (enablerFn jt, none)
  | none => (jt, some ("undefined eip " ++ eipName))

/-! ### EIP name validation -/

/-- `strings.Split(s, sep)` for a single-character separator. -/
def splitChar (sep : Char) : List Char → List (List Char)
  | [] => [[]]
  | c :: rest =>
    if c = sep then [] :: splitChar sep rest
    else
      match splitChar sep rest with
      | [] => [[c]]
      | h :: t => (c :: h) :: t

/-- Nonempty and all decimal digits. -/
def allDigits (l : List Char) : Bool :=
  !l.isEmpty && l.all fun c => '0' ≤ c && c ≤ '9'

/-- Decimal value of a digit string. -/
def digitsVal (l : List Char) : Nat :=
  l.foldl (fun n c => 10 * n + (c.toNat - '0'.toNat)) 0

/-- Success predicate of `strconv.Atoi`: an optional sign followed by at
least one digit, with the value inside the signed 64-bit range
(`ParseInt` reports `ErrRange` beyond it). -/
def goAtoiOk (l : List Char) : Bool :=
  match l with
  | [] => false
  | c :: rest =>
    if c = '-' then allDigits rest && digitsVal rest ≤ 2 ^ 63
    else if c = '+' then allDigits rest && digitsVal rest ≤ 2 ^ 63 - 1
    else allDigits (c :: rest) && digitsVal (c :: rest) ≤ 2 ^ 63 - 1

/-- `ValidateEIPName`: the name must split on the underscore into
exactly two parts, the second convertible to an int. -/
def ValidateEIPName (eipName : String) : Except String Unit :=
  let eipSplit := splitChar '_' eipName.toList
  if eipSplit.length ≠ 2 then
    .error "eip name does not conform to structure chainName_Number"
  else if !goAtoiOk (eipSplit.getD 1 []) then
    .error "eip number should be convertible to int"
  else .ok ()

/-- An integer literal: an optional sign followed by at least one
decimal digit (no range bound — the claim's notion of "integer"). -/
def intLiteralForm (l : List Char) : Bool :=
  match l with
  | [] => false
  | c :: rest =>
    if c = '-' then allDigits rest
    else if c = '+' then allDigits rest
    else allDigits (c :: rest)

/-- Range part of the `Atoi` check, separated out so the amendment to
the claim is visible: the literal's magnitude fits the signed 64-bit
range. -/
def atoiRangeOk (l : List Char) : Bool :=
  match l with
  | [] => true
  | c :: rest =>
    if c = '-' then digitsVal rest ≤ 2 ^ 63
    else if c = '+' then digitsVal rest ≤ 2 ^ 63 - 1
    else digitsVal (c :: rest) ≤ 2 ^ 63 - 1

/-- Number of occurrences of a character. -/
def countChar (sep : Char) : List Char → Nat
  | [] => 0
  | c :: rest => (if c = sep then 1 else 0) + countChar sep rest

/-- The claim's shape predicate, from its words: a namespace, an
underscore, an integer — exactly one underscore, with the part after it
an optional sign followed by at least one digit. -/
def eipNameForm (s : String) : Bool :=
  (countChar '_' s.toList = 1) && intLiteralForm ((s.toList.dropWhile fun x => x != '_').tail)

/-- The amended shape predicate: as `eipNameForm`, with the integer
additionally required to fit the parser's signed 64-bit range. -/
def eipNameFormInt64 (s : String) : Bool :=
  eipNameForm s && atoiRangeOk ((s.toList.dropWhile fun x => x != '_').tail)

/-- A concrete base table used to instantiate witnesses: every entry
holds a distinct pre-existing descriptor. -/
def testTable : JumpTable := fun _ =>
  { execute := .preexisting 0, constantGas := 1, dynamicGas := none,
    minStack := 0, maxStack := StackLimit }

/-! ### Claim-side statements of the SSTORE classification -/

/-- The charge of the claim's nine-row classification, given whether the
slot was cold: the cold surcharge (charged once, independent of the
branch) plus warm-read for a no-op, fresh-slot cost for creating a slot,
reset-minus-cold for writing an existing unchanged slot, and warm-read
for every dirty update. -/
def sstoreClaimCharge (cold : Bool) (value current original : Nat) : Nat :=
  (if cold then ColdSloadCostEIP2929 else 0) +
  (if current = value then WarmStorageReadCostEIP2929
   else if original = current then
     (if original = 0 then SstoreSetGasEIP2200
      else SstoreResetGasEIP2200 - ColdSloadCostEIP2929)
   else WarmStorageReadCostEIP2929)

/-- The net refund movement of the claim's nine-row classification. -/
def sstoreClaimRefundDelta (clearingRefund : Nat) (value current original : Nat) : Int :=
  if current = value then 0
  else if original = current then
    (if original ≠ 0 ∧ value = 0 then (clearingRefund : Int) else 0)
  else
    (if original ≠ 0 ∧ current = 0 ∧ value ≠ 0 then -(clearingRefund : Int) else 0)
    + (if original ≠ 0 ∧ value = 0 ∧ current ≠ 0 then (clearingRefund : Int) else 0)
    + (if original = value then
        (if original = 0 then
          ((SstoreSetGasEIP2200 - WarmStorageReadCostEIP2929 : Nat) : Int)
         else
          (((SstoreResetGasEIP2200 - ColdSloadCostEIP2929)
            - WarmStorageReadCostEIP2929 : Nat) : Int))
       else 0)

/-- The slot-warm flag after an SSTORE gas computation (a process abort
leaves no observable state, so it counts as vacuously preserved). -/
def sstoreSlotWarmAfter : SStoreResult → Bool
  | .ok _ st => st.slotWarm
  | .err _ st => st.slotWarm
  | .panicked => true

/-! ## Theorems -/

/-- C5: whenever the contract's remaining gas is at or below the
reentrancy-sentry threshold, the SSTORE gas function fails with the
sentry error for every stack operand and every access-list / storage /
refund state — the result does not depend on them — and the returned
state is the input state: no slot is marked warm and the refund is
unchanged. -/
theorem sstore_sentry_checked_first (clearingRefund contractGas value current original : Nat)
    (st : SStoreState) (hg : contractGas ≤ SstoreSentryGasEIP2200) :
    makeGasSStoreFunc clearingRefund contractGas value current original st =
      .err .reentrancySentry st := by
  unfold makeGasSStoreFunc
  rw [if_pos hg]

theorem sstore_sentry_checked_first_witness :
    makeGasSStoreFunc 15000 2300 5 0 5 ⟨false, false, 7⟩ =
      .err .reentrancySentry ⟨false, false, 7⟩ :=
  sstore_sentry_checked_first 15000 2300 5 0 5 ⟨false, false, 7⟩ (by decide)

/-- C10: past the sentry check, on a cold slot the SSTORE gas function
aborts the process (the source's canary `panic`) exactly when the
executing contract's own address is not in the access list; it returns
normally on a cold slot only when the contract's address is already
warm. -/
theorem sstore_cold_slot_panic_iff_addr_cold
    (clearingRefund contractGas value current original : Nat) (st : SStoreState)
    (hg : SstoreSentryGasEIP2200 < contractGas) (hsw : st.slotWarm = false) :
    (makeGasSStoreFunc clearingRefund contractGas value current original st =
      .panicked) ↔ st.addrWarm = false := by
  unfold makeGasSStoreFunc
  rw [if_neg (by omega)]
  cases ha : st.addrWarm <;> simp [hsw, ha] <;> split_ifs <;> simp

theorem sstore_cold_slot_panic_iff_addr_cold_witness :
    (makeGasSStoreFunc 15000 3000 5 0 5 ⟨false, false, 0⟩ = .panicked) ↔
      (⟨false, false, 0⟩ : SStoreState).addrWarm = false :=
  sstore_cold_slot_panic_iff_addr_cold 15000 3000 5 0 5 ⟨false, false, 0⟩
    (by decide) rfl

/-- C2 (failing behavior): the MCOPY dynamic gas function does not
special-case a zero length.  On an empty memory with `length = 0`,
`src = 64`, `dst = 0` it charges 6 gas of memory expansion (claim and
spec: a zero-length copy charges no memory-expansion gas), and with
`src = 2^64 - 1` it fails with the overflow error (claim and spec: it
never fails, regardless of how large the offsets are).  The execute
function, by contrast, does return immediately: third conjunct. -/
theorem gasMCopy_zero_length_divergence :
    gasMCopy ⟨[], 0⟩ [0, 64, 0] = .ok 6
    ∧ gasMCopy ⟨[], 0⟩ [0, 2 ^ 64 - 1, 0] = .error .gasUintOverflow
    ∧ opMCopy [0, 2 ^ 64 - 1, 2 ^ 64 - 1] ⟨[], 0⟩ = .ok ([], ⟨[], 0⟩) :=
  ⟨rfl, rfl, rfl⟩

/-- C3: the access-list call-variant wrapper.  On a warm callee address
it returns the prior (pre-access-list) cost function's result unchanged,
with no surcharge and no state change.  On a cold callee with at least
the cold surcharge available, it deducts the surcharge `cold - warm`
from the contract's gas before invoking the prior cost function (the
prior function is invoked at exactly the reduced balance), marks the
address warm, and on success adds the surcharge back both to the
contract's gas (restoring the original balance) and to the returned gas
total. -/
theorem call_variant_cold_warm (oldCalc : Nat → Except GasError Nat) (st : CallGasState) :
    (st.addrWarm = true →
      makeCallVariantGasCallEIP2929 oldCalc st = (oldCalc st.contractGas, st))
    ∧ (∀ g, st.addrWarm = false →
      ColdAccountAccessCostEIP2929 - WarmStorageReadCostEIP2929 ≤ st.contractGas →
      oldCalc (st.contractGas - (ColdAccountAccessCostEIP2929 - WarmStorageReadCostEIP2929))
        = .ok g →
      makeCallVariantGasCallEIP2929 oldCalc st =
        (.ok (g + (ColdAccountAccessCostEIP2929 - WarmStorageReadCostEIP2929)),
         ⟨st.contractGas, true⟩)) := by
  constructor
  · intro hw
    unfold makeCallVariantGasCallEIP2929
    rw [if_pos hw]
  · intro g hw hle hok
    unfold makeCallVariantGasCallEIP2929
    rw [if_neg (by simp [hw]), if_neg (by omega)]
    simp [hok, Nat.sub_add_cancel hle]

theorem call_variant_cold_warm_witness :
    makeCallVariantGasCallEIP2929 (fun gasLeft => .ok (gasLeft - gasLeft / 64)) ⟨5000, false⟩ =
      (.ok (2461 + 2500), ⟨5000, true⟩) :=
  (call_variant_cold_warm (fun gasLeft => .ok (gasLeft - gasLeft / 64)) ⟨5000, false⟩).2
    2461 rfl (by decide) rfl

/-- C8: every activator in the registry is idempotent — reapplying it to
an already-activated table leaves every operation descriptor
field-for-field unchanged; in particular the second application of a
new-opcode activator installs the identical descriptor for its byte
rather than a conflicting one. -/
theorem activators_idempotent (jt : JumpTable) (op : Opcode) :
    enable1884 (enable1884 jt) op = enable1884 jt op
    ∧ enable1344 (enable1344 jt) op = enable1344 jt op
    ∧ enable2200 (enable2200 jt) op = enable2200 jt op
    ∧ enable2929 (enable2929 jt) op = enable2929 jt op
    ∧ enable3529 (enable3529 jt) op = enable3529 jt op
    ∧ enable3198 (enable3198 jt) op = enable3198 jt op
    ∧ enable3855 (enable3855 jt) op = enable3855 jt op
    ∧ enable5656 (enable5656 jt) op = enable5656 jt op := by
  cases op <;> exact ⟨rfl, rfl, rfl, rfl, rfl, rfl, rfl, rfl⟩

/-- C1: past the sentry check, and with the executing contract's address
warm (the invariant the source asserts with its canary panic — the cold
case is the subject of C10), the SSTORE gas function realizes the
nine-row classification: its charge is `sstoreClaimCharge` (the warm-read
/ fresh-slot / reset-minus-cold / dirty-update charge of the row, plus
the cold surcharge exactly once when the slot was cold), the slot is left
warm, and the refund accumulator moves by exactly
`sstoreClaimRefundDelta` (clearing refund added on deletes, reversed on
recreates, and the reset-to-original credits). -/
theorem sstore_nine_row_classification (clearingRefund contractGas value current original : Nat)
    (st : SStoreState) (hg : SstoreSentryGasEIP2200 < contractGas)
    (ha : st.addrWarm = true) :
    makeGasSStoreFunc clearingRefund contractGas value current original st =
      .ok (sstoreClaimCharge (!st.slotWarm) value current original)
        ⟨true, true, st.refund + sstoreClaimRefundDelta clearingRefund value current original⟩ := by
  obtain ⟨sw, aw, r⟩ := st
  simp only at ha
  subst ha
  unfold makeGasSStoreFunc sstoreClaimCharge sstoreClaimRefundDelta
  rw [if_neg (by omega)]
  simp only [Bool.and_false, Bool.false_eq_true, if_false, Bool.not_false, Bool.not_true,
    Bool.false_and, Bool.and_self]
  cases sw <;>
    · simp only [Bool.not_false, Bool.not_true, Bool.false_and, Bool.true_and,
        Bool.and_false, Bool.false_eq_true, if_false, if_true, ite_true, ite_false]
      split_ifs <;>
        simp_all [SstoreSetGasEIP2200, SstoreResetGasEIP2200, ColdSloadCostEIP2929,
          WarmStorageReadCostEIP2929] <;>
        omega

theorem sstore_nine_row_classification_witness :
    makeGasSStoreFunc 15000 3000 5 0 5 ⟨true, true, 20000⟩ =
      .ok (sstoreClaimCharge false 5 0 5) ⟨true, true, 20000 + sstoreClaimRefundDelta 15000 5 0 5⟩ :=
  sstore_nine_row_classification 15000 3000 5 0 5 ⟨true, true, 20000⟩ (by decide) rfl

/-- C6: the first SLOAD gas computation on a cold (address, slot) pair
charges the cold-sload cost and marks the pair warm; under the
access-list activator SLOAD's constant gas component is zero (and its
dynamic gas is the access-list function); every subsequent computation
on the now-warm pair charges only the warm baseline; and warmth is
monotonic — neither the SLOAD nor the SSTORE gas function ever unmarks a
warm pair (the other embedded gas functions do not touch the slot access
list at all). -/
theorem sload_cold_then_warm :
    gasSLoadEIP2929 false = (ColdSloadCostEIP2929, true)
    ∧ gasSLoadEIP2929 true = (WarmStorageReadCostEIP2929, true)
    ∧ gasSLoadEIP2929 (gasSLoadEIP2929 false).2 = (WarmStorageReadCostEIP2929, true)
    ∧ (∀ jt : JumpTable, (enable2929 jt .SLOAD).constantGas = 0
        ∧ (enable2929 jt .SLOAD).dynamicGas = some .gasSLoadEIP2929)
    ∧ (∀ b, b = true → (gasSLoadEIP2929 b).2 = true)
    ∧ (∀ clearingRefund contractGas value current original : Nat, ∀ st : SStoreState,
        st.slotWarm = true →
        sstoreSlotWarmAfter
          (makeGasSStoreFunc clearingRefund contractGas value current original st) = true) := by
  refine ⟨rfl, rfl, rfl, fun jt => ⟨rfl, rfl⟩, fun b hb => by subst hb; rfl, ?_⟩
  intro clearingRefund contractGas value current original st hsw
  obtain ⟨sw, aw, r⟩ := st
  simp only at hsw
  subst hsw
  unfold makeGasSStoreFunc sstoreSlotWarmAfter
  split_ifs <;> simp

theorem sload_cold_then_warm_witness :
    gasSLoadEIP2929 false = (ColdSloadCostEIP2929, true)
    ∧ sstoreSlotWarmAfter (makeGasSStoreFunc 4800 5000 1 2 3 ⟨true, true, 0⟩) = true :=
  ⟨sload_cold_then_warm.1,
    sload_cold_then_warm.2.2.2.2.2 4800 5000 1 2 3 ⟨true, true, 0⟩ rfl⟩

theorem Memory.resize_store_length (m : Memory) (n : Nat) :
    (m.resize n).store.length = max m.store.length n := by
  unfold Memory.resize
  split <;> simp <;> omega

theorem Memory.resize_lastGasCost (m : Memory) (n : Nat) :
    (m.resize n).lastGasCost = m.lastGasCost := by
  unfold Memory.resize
  split <;> rfl

/-- C4: for a non-zero length (and 64-bit operands, as extracted from
the stack words), the MCOPY dynamic gas charge is exactly the memory
growth cost at `max (src + length) (dst + length)` plus `3 * length`,
with each addition and the multiplication overflow-checked against
`2^64`; every overflowing step yields the explicit overflow error
`gasUintOverflow` (a constructor distinct from plain out-of-gas), never
a wrapped or saturated figure. -/
theorem gasMCopy_growth_plus_linear (mem : Memory) (len src dst : Nat) (rest : List Nat)
    (hl : len < 2 ^ 64) (hs : src < 2 ^ 64) (hd : dst < 2 ^ 64) (hlz : len ≠ 0) :
    (∀ g, src + len < 2 ^ 64 → dst + len < 2 ^ 64 →
      memoryGasCost mem (max (src + len) (dst + len)) = .ok g →
      3 * len < 2 ^ 64 → g + 3 * len < 2 ^ 64 →
      gasMCopy mem (len :: src :: dst :: rest) = .ok (g + 3 * len))
    ∧ (2 ^ 64 ≤ src + len ∨ 2 ^ 64 ≤ dst + len →
      gasMCopy mem (len :: src :: dst :: rest) = .error .gasUintOverflow)
    ∧ (∀ e, src + len < 2 ^ 64 → dst + len < 2 ^ 64 →
      memoryGasCost mem (max (src + len) (dst + len)) = .error e →
      gasMCopy mem (len :: src :: dst :: rest) = .error e)
    ∧ (∀ g, src + len < 2 ^ 64 → dst + len < 2 ^ 64 →
      memoryGasCost mem (max (src + len) (dst + len)) = .ok g →
      2 ^ 64 ≤ 3 * len →
      gasMCopy mem (len :: src :: dst :: rest) = .error .gasUintOverflow)
    ∧ (∀ g, src + len < 2 ^ 64 → dst + len < 2 ^ 64 →
      memoryGasCost mem (max (src + len) (dst + len)) = .ok g →
      3 * len < 2 ^ 64 → 2 ^ 64 ≤ g + 3 * len →
      gasMCopy mem (len :: src :: dst :: rest) = .error .gasUintOverflow)
    ∧ GasError.gasUintOverflow ≠ GasError.outOfGas := by
  have hmods : len % 2 ^ 64 = len ∧ src % 2 ^ 64 = src ∧ dst % 2 ^ 64 = dst :=
    ⟨Nat.mod_eq_of_lt hl, Nat.mod_eq_of_lt hs, Nat.mod_eq_of_lt hd⟩
  have hmax : ∀ (h1 : src + len < 2 ^ 64) (h2 : dst + len < 2 ^ 64),
      (if (dst + len) % 2 ^ 64 < (src + len) % 2 ^ 64 then (src + len) % 2 ^ 64
        else (dst + len) % 2 ^ 64) = max (src + len) (dst + len) := by
    intro h1 h2
    rw [Nat.mod_eq_of_lt h1, Nat.mod_eq_of_lt h2, Nat.max_def]
    split_ifs <;> omega
  have keyOk : ∀ g, src + len < 2 ^ 64 → dst + len < 2 ^ 64 →
      memoryGasCost mem (max (src + len) (dst + len)) = .ok g →
      gasMCopy mem (len :: src :: dst :: rest) =
        (if (SafeMul 3 len).2 then .error .gasUintOverflow
         else if (SafeAdd g (SafeMul 3 len).1).2 then .error .gasUintOverflow
         else .ok ((SafeAdd g (SafeMul 3 len).1).1)) := by
    intro g h1 h2 hmg
    simp only [gasMCopy, SafeAdd, SafeMul, List.getD_cons_zero, List.getD_cons_succ,
      hmods.1, hmods.2.1, hmods.2.2]
    rw [if_neg (by simp only [Bool.or_eq_true, decide_eq_true_eq]; omega), hmax h1 h2, hmg]
  have keyErr : ∀ e, src + len < 2 ^ 64 → dst + len < 2 ^ 64 →
      memoryGasCost mem (max (src + len) (dst + len)) = .error e →
      gasMCopy mem (len :: src :: dst :: rest) = .error e := by
    intro e h1 h2 hmg
    simp only [gasMCopy, SafeAdd, SafeMul, List.getD_cons_zero, List.getD_cons_succ,
      hmods.1, hmods.2.1, hmods.2.2]
    rw [if_neg (by simp only [Bool.or_eq_true, decide_eq_true_eq]; omega), hmax h1 h2, hmg]
  refine ⟨?_, ?_, keyErr, ?_, ?_, by simp⟩
  · intro g h1 h2 hmg h3 h4
    rw [keyOk g h1 h2 hmg,
      if_neg (by simp only [SafeMul, decide_eq_true_eq]; omega),
      if_neg (by simp only [SafeAdd, SafeMul, decide_eq_true_eq]; omega)]
    congr 1
    simp only [SafeAdd, SafeMul]
    omega
  · intro hov
    simp only [gasMCopy, SafeAdd, SafeMul, List.getD_cons_zero, List.getD_cons_succ,
      hmods.1, hmods.2.1, hmods.2.2]
    rw [if_pos (by simp only [Bool.or_eq_true, decide_eq_true_eq]; omega)]
  · intro g h1 h2 hmg h3
    rw [keyOk g h1 h2 hmg, if_pos (by simp only [SafeMul, decide_eq_true_eq]; omega)]
  · intro g h1 h2 hmg h3 h4
    rw [keyOk g h1 h2 hmg,
      if_neg (by simp only [SafeMul, decide_eq_true_eq]; omega),
      if_pos (by simp only [SafeAdd, SafeMul, decide_eq_true_eq]; omega)]

theorem gasMCopy_growth_plus_linear_witness :
    gasMCopy ⟨[], 0⟩ [32, 0, 32] = .ok (6 + 3 * 32)
    ∧ gasMCopy ⟨List.replicate 64 0, 6⟩ [32, 0, 32] = .ok (0 + 3 * 32) :=
  ⟨(gasMCopy_growth_plus_linear ⟨[], 0⟩ 32 0 32 [] (by decide) (by decide) (by decide)
      (by decide)).1 6 (by decide) (by decide) rfl (by decide) (by decide),
   (gasMCopy_growth_plus_linear ⟨List.replicate 64 0, 6⟩ 32 0 32 [] (by decide) (by decide)
      (by decide) (by decide)).1 0 (by decide) (by decide) rfl (by decide) (by decide)⟩

/-- C9: the MCOPY execute function pops exactly three operands — length
first, then the destination offset, then the source offset — leaving the
rest of the stack (its descriptor declares `minStack(3, 0)` and
`maxStack(3, 0)`: pop 3, push 0); and for every non-zero length whose
ranges stay within 64-bit bounds, including every overlapping pair of
ranges, the resulting memory is exactly the reference copy through a
temporary buffer (`mcopyRef`): all source bytes are captured before any
destination byte is written. -/
theorem opMCopy_pop_order_and_overlap (l d s : Nat) (rest : List Nat) (mem : Memory)
    (hl : l < 2 ^ 64) (hd : d < 2 ^ 64) (hs : s < 2 ^ 64) (hlz : l ≠ 0)
    (h1 : s + l < 2 ^ 64) (h2 : d + l < 2 ^ 64) :
    opMCopy (l :: d :: s :: rest) mem =
      .ok (rest, mcopyRef (mem.resize (max (s + l) (d + l))) s d l)
    ∧ ∀ jt : JumpTable, (enable5656 jt .MCOPY).minStack = minStack 3 0
        ∧ (enable5656 jt .MCOPY).maxStack = maxStack 3 0 := by
  refine ⟨?_, fun jt => ⟨rfl, rfl⟩⟩
  have hml : l % 2 ^ 64 = l := Nat.mod_eq_of_lt hl
  have hmd : d % 2 ^ 64 = d := Nat.mod_eq_of_lt hd
  have hms : s % 2 ^ 64 = s := Nat.mod_eq_of_lt hs
  simp only [opMCopy, SafeAdd, hml, hmd, hms]
  rw [if_neg hlz, if_neg (by simp only [Bool.or_eq_true, decide_eq_true_eq]; omega)]
  have hmax : (if (s + l) % 2 ^ 64 < (d + l) % 2 ^ 64 then (d + l) % 2 ^ 64
      else (s + l) % 2 ^ 64) = max (s + l) (d + l) := by
    rw [Nat.mod_eq_of_lt h1, Nat.mod_eq_of_lt h2, Nat.max_def]
    split_ifs <;> omega
  rw [hmax]
  have hlen : (mem.resize (max (s + l) (d + l))).store.length =
      max mem.store.length (max (s + l) (d + l)) :=
    Memory.resize_store_length mem (max (s + l) (d + l))
  have hsb : s + l ≤ (mem.resize (max (s + l) (d + l))).store.length := by
    rw [hlen]; omega
  have hdb : d + l ≤ (mem.resize (max (s + l) (d + l))).store.length := by
    rw [hlen]; omega
  rw [Memory.getPtr, if_neg hlz, if_pos hsb]
  simp [Memory.set, mcopyRef, hlz, hdb, List.take_take]

theorem opMCopy_pop_order_and_overlap_witness :
    opMCopy [3, 2, 0] ⟨[1, 2, 3, 4, 5, 6], 0⟩ =
      .ok ([], ⟨[1, 2, 1, 2, 3, 6], 0⟩) :=
  ((opMCopy_pop_order_and_overlap 3 2 0 [] ⟨[1, 2, 3, 4, 5, 6], 0⟩ (by decide) (by decide)
      (by decide) (by decide) (by decide) (by decide)).1).trans (by rfl)

theorem splitChar_ne_nil (sep : Char) (l : List Char) : splitChar sep l ≠ [] := by
  induction l with
  | nil => simp [splitChar]
  | cons c rest ih =>
    simp only [splitChar]
    split
    · simp
    · rcases h : splitChar sep rest with _ | ⟨hh, tt⟩ <;> simp [h]

theorem splitChar_length (sep : Char) (l : List Char) :
    (splitChar sep l).length = countChar sep l + 1 := by
  induction l with
  | nil => rfl
  | cons c rest ih =>
    simp only [splitChar, countChar]
    split
    · simp only [List.length_cons, ih]
      omega
    · rcases h : splitChar sep rest with _ | ⟨hh, tt⟩
      · exact absurd h (splitChar_ne_nil sep rest)
      · rw [h] at ih
        simp only [List.length_cons] at ih ⊢
        omega

theorem splitChar_count_zero (sep : Char) (l : List Char) (h : countChar sep l = 0) :
    splitChar sep l = [l] := by
  induction l with
  | nil => rfl
  | cons c rest ih =>
    simp only [countChar] at h
    have hc : ¬ c = sep := by
      intro e
      rw [if_pos e] at h
      omega
    simp only [splitChar]
    rw [if_neg hc, ih (by omega)]

theorem splitChar_count_one (sep : Char) (l : List Char) (h : countChar sep l = 1) :
    splitChar sep l =
      [l.takeWhile (fun x => x != sep), (l.dropWhile (fun x => x != sep)).tail] := by
  induction l with
  | nil => simp [countChar] at h
  | cons c rest ih =>
    simp only [countChar] at h
    by_cases hc : c = sep
    · rw [if_pos hc] at h
      subst hc
      simp only [splitChar, if_pos rfl]
      rw [splitChar_count_zero c rest (by omega)]
      simp [List.takeWhile_cons, List.dropWhile_cons]
    · rw [if_neg hc] at h
      simp only [splitChar]
      rw [if_neg hc, ih (by omega)]
      have hb : (c != sep) = true := by simp [bne_iff_ne]; exact hc
      simp [List.takeWhile_cons, List.dropWhile_cons, hb]

theorem goAtoiOk_split (l : List Char) :
    goAtoiOk l = (intLiteralForm l && atoiRangeOk l) := by
  rcases l with _ | ⟨c, rest⟩
  · rfl
  · simp only [goAtoiOk, intLiteralForm, atoiRangeOk]
    split_ifs <;> rfl

/-- C7 counterexample: `"a_9999999999999999999"` is of the claimed
namespace-underscore-integer form, yet `ValidateEIPName` rejects it (its
integer parser range-checks against the signed 64-bit bound, and
`9999999999999999999 > 2^63 - 1`). -/
theorem validate_eip_name_form_counterexample :
    eipNameForm "a_9999999999999999999" = true ∧
      ValidateEIPName "a_9999999999999999999" =
        .error "eip number should be convertible to int" :=
  ⟨by decide, rfl⟩

/-- C7 (amended): an unregistered feature identifier makes `EnableEIP`
return a configuration error naming that identifier with the jump table
unmodified; and `ValidateEIPName` accepts exactly the strings of the
form namespace, underscore, integer with the integer inside the signed
64-bit range of the parser — independently of registration. -/
theorem enable_eip_unknown_and_validate (s : String) (jt : JumpTable) :
    (activators s = none → EnableEIP s jt = (jt, some ("undefined eip " ++ s)))
    ∧ (ValidateEIPName s = .ok () ↔ eipNameFormInt64 s = true) := by
  constructor
  · intro h
    unfold EnableEIP
    rw [h]
  · simp only [ValidateEIPName, eipNameFormInt64, eipNameForm]
    rcases hc : countChar '_' s.toList with _ | n
    · have hlen := splitChar_length '_' s.toList
      rw [hc] at hlen
      rw [if_pos (by omega)]
      simp [hc]
    · cases n with
      | zero =>
        rw [splitChar_count_one '_' s.toList hc]
        rw [if_neg (by simp)]
        simp only [List.getD_cons_succ, List.getD_cons_zero]
        simp only [goAtoiOk_split]
        cases hi : intLiteralForm ((s.toList.dropWhile fun x => x != '_').tail) <;>
          cases hr : atoiRangeOk ((s.toList.dropWhile fun x => x != '_').tail) <;>
            simp [hi, hr, hc]
      | succ m =>
        have hlen := splitChar_length '_' s.toList
        rw [hc] at hlen
        rw [if_pos (by omega)]
        simp [hc]

theorem enable_eip_unknown_and_validate_witness :
    EnableEIP "ethereum_9999" testTable =
      (testTable, some ("undefined eip " ++ "ethereum_9999")) :=
  (enable_eip_unknown_and_validate "ethereum_9999" testTable).1 rfl

end CosmEvm
